import Mathlib

/-!
Verification of the zynthian audio-file player core (`player.c`).

The definitions below are a shallow embedding of the source:

* `AudioPlayer` mirrors `struct AUDIO_PLAYER` (the fields the verified
  claims touch).  Audio samples and gain are modelled as rationals (the C
  code uses `float`/`double`; the claims at issue are about control flow,
  branch structure and exact per-sample formulas, not about rounding).
* Ring buffers are modelled in sample units as `List ℚ` (the C code moves
  whole 4-byte floats through `jack_ringbuffer`, so byte counts are always
  multiples of `sizeof(float)`).
* `jack_nframes_t` counters are modelled as `Nat`; the embedding assumes
  frame counts stay below `2^32`, which holds for any realistic file and
  block size, so 32-bit wraparound is immaterial for the claims proved here.
* Fallible handle lookup returns `Option`.
-/

/-- `MAX_PLAYERS` from player.c line 26. -/
def MAX_PLAYERS : Nat := 16

/- `enum playState` -/

def STOPPED : Nat := 0
def STARTING : Nat := 1
def PLAYING : Nat := 2
def STOPPING : Nat := 3

/- `enum seekState` -/

def IDLE : Nat := 0
def SEEKING : Nat := 1
def LOADING : Nat := 2
def LOOPING : Nat := 3

/-- `SRC_LINEAR` from libsamplerate (quality tiers 0..4, `SRC_LINEAR = 4`),
used by the range check in `set_src_quality`. -/
def SRC_LINEAR : Nat := 4

/-- The fields of `struct AUDIO_PLAYER` the verified claims depend on.
`file_open`: 0=closed, 1=opening, 2=open.  `sf_channels`, `sf_samplerate`,
`sf_frames` are the `sf_info` fields.  `frames` is the converted frame count.
`src_ratio_val` models the `src_ratio` member.  `has_jack_client` models the
non-nullness of the `jack_client` pointer. -/
structure AudioPlayer where
  handle : Nat
  file_open : Nat
  file_read_status : Nat
  play_state : Nat
  loop : Bool
  gain : ℚ
  track_a : Int
  track_b : Int
  buffer_size : Nat
  buffer_count : Nat
  src_quality : Nat
  sf_channels : Int
  sf_samplerate : Nat
  sf_frames : Nat
  play_pos_frames : Nat
  frames : Nat
  last_note_played : Nat
  src_ratio_val : ℚ
  src_ratio_inv : ℚ
  pitch_shift : Int
  pitch_bend : Nat
  has_jack_client : Bool
  deriving DecidableEq

/-- The global registry `g_players` (player.c line 92): a fixed table of
`MAX_PLAYERS` slots, each holding a player or `NULL`. -/
def Registry : Type := List (Option AudioPlayer)

/-- The bounds test inside `get_player` (player.c lines 103-104):
`if(player_handle > MAX_PLAYERS || player_handle < 0) return NULL;`
The guard passes when neither condition holds.  Note the comparison is
`>` (not `>=`), so `player_handle == MAX_PLAYERS` passes the guard. -/
def get_player_guard (player_handle : Int) : Bool :=
  !(decide (player_handle > (MAX_PLAYERS : Int)) || decide (player_handle < 0))

/-- `get_player` (player.c lines 102-106).  In C a guard-passing handle is
used to index `g_players` directly; the total model returns `none` when the
index falls outside the table, whereas the C code performs an out-of-bounds
read there (see the guard theorem for handle 16). -/
def get_player (slots : Registry) (player_handle : Int) : Option AudioPlayer :=
  if get_player_guard player_handle then
    (List.getD slots player_handle.toNat none)
  else
    none

/- **** Control-surface setters (per-player core; `get_player` resolution is
modelled separately via `get_player`). **** -/

/-- `set_gain` (player.c lines 912-920): rejects when no open file, rejects
gain outside [0,2], otherwise stores the gain. -/
def set_gain (p : AudioPlayer) (gain : ℚ) : AudioPlayer :=
  if p.file_open ≠ 2 then p
  else if gain < 0 ∨ gain > 2 then p
  else { p with gain := gain }

/-- `get_gain` (player.c lines 922-927). -/
def get_gain (p : AudioPlayer) : ℚ :=
  if p.file_open ≠ 2 then 0 else p.gain

/-- `enable_loop` (player.c lines 577-587).  Note the loop flag is stored
BEFORE any file-open check; the follow-up test reads `file_open != 2`. -/
def enable_loop (p : AudioPlayer) (bLoop : Bool) : AudioPlayer :=
  let p1 := { p with loop := bLoop }
  if p1.file_open ≠ 2 ∧ bLoop ∧ p1.file_read_status = IDLE then
    { p1 with file_read_status := LOOPING }
  else p1

/-- `set_src_quality` (player.c lines 894-903). -/
def set_src_quality (p : AudioPlayer) (quality : Nat) : AudioPlayer :=
  if p.file_open ≠ 2 then p
  else if quality > SRC_LINEAR then p
  else { p with src_quality := quality }

/-- `get_duration` (player.c lines 542-547). -/
def get_duration_p (p : AudioPlayer) : ℚ :=
  if p.file_open = 2 ∧ p.sf_samplerate ≠ 0 then
    (p.sf_frames : ℚ) / (p.sf_samplerate : ℚ)
  else 0

/-- `get_position` (player.c lines 570-575). -/
def get_position_p (p : AudioPlayer) : ℚ :=
  if p.file_open = 2 ∧ p.sf_samplerate ≠ 0 then
    p.src_ratio_inv * (p.play_pos_frames : ℚ) / (p.sf_samplerate : ℚ)
  else 0

/-- `set_position` (player.c lines 549-568).  Clamps the requested time to
the duration, converts to converted-frame units, clamps to `frames - 1`,
stores the play position (the C `double` → `jack_nframes_t` conversion
truncates; for the non-negative values arising under the theorems' hypotheses
this is `Rat.floor`), flags `SEEKING`, and resets both ring buffers.
`frames - 1` uses truncated `Nat` subtraction; the C `size_t` expression
wraps instead when `frames == 0`, a case excluded by the theorems. -/
def set_position_p (p : AudioPlayer) (ringA ringB : List ℚ) (time : ℚ) :
    AudioPlayer × List ℚ × List ℚ :=
  if p.file_open ≠ 2 then (p, ringA, ringB)
  else
    let t := if time ≥ get_duration_p p then get_duration_p p else time
    let fr : ℚ := p.src_ratio_val * t * (p.sf_samplerate : ℚ)
    let fr2 : ℚ := if fr ≥ (p.frames : ℚ) then ((p.frames - 1 : Nat) : ℚ) else fr
    ({ p with play_pos_frames := fr2.floor.toNat, file_read_status := SEEKING },
     [], [])

/-- `start_playback` (player.c lines 596-601). -/
def start_playback_p (p : AudioPlayer) : AudioPlayer :=
  if p.has_jack_client = true ∧ p.file_open = 2 ∧ p.play_state ≠ PLAYING then
    { p with play_state := STARTING }
  else p

/-- `stop_playback` (player.c lines 603-608). -/
def stop_playback_p (p : AudioPlayer) : AudioPlayer :=
  if p.play_state ≠ STOPPED then { p with play_state := STOPPING } else p

/-- The state shared between the player struct and its two ring buffers,
as seen by `set_track_a/b` and the MIDI handler. -/
structure JackState where
  player : AudioPlayer
  ringA : List ℚ
  ringB : List ℚ
  deriving DecidableEq

/-- `set_track_a` (player.c lines 929-941). -/
def set_track_a (s : JackState) (track : Int) : JackState :=
  let p := s.player
  if p.file_open ≠ 2 then s
  else
    let p1 :=
      if p.file_open = 2 ∧ track < p.sf_channels then
        if p.sf_channels = 1 then { p with track_a := 0 }
        else { p with track_a := track }
      else p
    let r := set_position_p p1 s.ringA s.ringB (get_position_p p1)
    ⟨r.1, r.2.1, r.2.2⟩

/-- `set_track_b` (player.c lines 943-955). -/
def set_track_b (s : JackState) (track : Int) : JackState :=
  let p := s.player
  if p.file_open ≠ 2 then s
  else
    let p1 :=
      if p.file_open = 2 ∧ track < p.sf_channels then
        if p.sf_channels = 1 then { p with track_b := 0 }
        else { p with track_b := track }
      else p
    let r := set_position_p p1 s.ringA s.ringB (get_position_p p1)
    ⟨r.1, r.2.1, r.2.2⟩

/-- `get_player_count` (player.c lines 1033-1039).  The per-slot test in the
source is `if(g_players)`: it tests the global array `g_players` itself
(which decays to the never-null address of its first element), not the slot
`g_players[i]`, so the test is true on every iteration.
`g_players_decayed_nonnull` records that constant truth value. -/
def g_players_decayed_nonnull : Bool := true

def get_player_count (slots : Registry) : Nat :=
  (List.range MAX_PLAYERS).foldl
    (fun count _ => if g_players_decayed_nonnull then count + 1 else count) 0

/- **** File streaming task: ring-space wait guard and downmix
(`file_thread_fn`). **** -/

/-- The wait-loop guard at player.c lines 404-405:
`while(write_space(ringbuffer_a) < nFramesRead*sizeof(float)`
`   && write_space(ringbuffer_b) < nFramesRead*sizeof(float))`.
Arguments are in bytes, exactly as in the source; the loop keeps sleeping
while this guard is true. -/
def ring_wait_guard (write_space_a write_space_b needed_bytes : Nat) : Bool :=
  decide (write_space_a < needed_bytes) && decide (write_space_b < needed_bytes)

/-- Modelled from the spec ("wait ... until BOTH ring channels have enough
free space"): the wait guard the spec describes keeps waiting while EITHER
channel lacks space. -/
def ring_wait_guard_spec (write_space_a write_space_b needed_bytes : Nat) : Bool :=
  decide (write_space_a < needed_bytes) || decide (write_space_b < needed_bytes)

/-- The even-indexed tracks visited by the channel-A downmix loop at
player.c line 419: `for(track = 0; track < channels; track += 2)`. -/
def evenTracks (channels : Nat) : List Nat :=
  (List.range channels).filter (fun t => t % 2 = 0)

/-- The odd-indexed tracks visited by the channel-B downmix loop at
player.c line 427: `for(track = 0; track + 1 < channels; track += 2)`
reads index `track + 1`, i.e. exactly the odd indices below `channels`. -/
def oddTracks (channels : Nat) : List Nat :=
  (List.range channels).filter (fun t => t % 2 = 1)

/-- Channel-A sample of one output frame (player.c lines 414-424, 433-437).
`frame ch` is `pBufferOut[frame*channels + ch]`.  In the downmix branch each
term is divided by the C integer division `channels / 2`. -/
def downmixA (channels : Nat) (track_a : Int) (frame : Nat → ℚ) : ℚ :=
  if 1 < channels then
    if track_a < 0 then
      (evenTracks channels).foldl
        (fun fA t => fA + frame t / ((channels / 2 : Nat) : ℚ)) 0
    else frame track_a.toNat
  else frame 0 / 2

/-- Channel-B sample of one output frame (player.c lines 414-437). -/
def downmixB (channels : Nat) (track_b : Int) (frame : Nat → ℚ) : ℚ :=
  if 1 < channels then
    if track_b < 0 then
      (oddTracks channels).foldl
        (fun fB t => fB + frame t / ((channels / 2 : Nat) : ℚ)) 0
    else frame track_b.toNat
  else frame 0 / 2

/-- Modelled from the spec's downmix rule: "if `trackA < 0`, A = average of
even-indexed channels (0, 2, 4, ...)". -/
def downmixA_spec (channels : Nat) (track_a : Int) (frame : Nat → ℚ) : ℚ :=
  if 1 < channels then
    if track_a < 0 then
      ((evenTracks channels).map frame).sum / ((evenTracks channels).length : ℚ)
    else frame track_a.toNat
  else frame 0 / 2

/-- Modelled from the spec's downmix rule: "Symmetric rule for B using
odd-indexed channels". -/
def downmixB_spec (channels : Nat) (track_b : Int) (frame : Nat → ℚ) : ℚ :=
  if 1 < channels then
    if track_b < 0 then
      ((oddTracks channels).map frame).sum / ((oddTracks channels).length : ℚ)
    else frame track_b.toNat
  else frame 0 / 2

/- **** Render callback (`on_jack_process`) and its MIDI handling. **** -/

/-- One MIDI event as read in `on_jack_process`: `status = buffer[0]`,
`data1 = buffer[1]` (note number), `data2 = buffer[2]` (velocity). -/
structure MidiEvent where
  status : Nat
  data1 : Nat
  data2 : Nat
  deriving DecidableEq

/-- Handling of one MIDI event (player.c lines 731-751).  The note-off guard
is the C expression
`(cmd == 0x80 || cmd == 0x90 && buffer[2] == 0) && last_note_played == buffer[1]`,
whose `&&`-binds-tighter-than-`||` parse is written out explicitly below.
The `ENABLE_MIDI` CC block is conditionally compiled out and not modelled. -/
def handle_midi_event (s : JackState) (ev : MidiEvent) : JackState :=
  let p := s.player
  let cmd := ev.status &&& 0xF0
  if (cmd = 0x80 ∨ (cmd = 0x90 ∧ ev.data2 = 0)) ∧ p.last_note_played = ev.data1 then
    -- Note off
    let p1 := stop_playback_p p
    ⟨{ p1 with pitch_shift := 0, last_note_played := 0 }, s.ringA, s.ringB⟩
  else if cmd = 0x90 then
    -- Note on
    let p1 := stop_playback_p p
    let p2 := { p1 with pitch_shift := 60 - (ev.data1 : Int) }
    let r := set_position_p p2 s.ringA s.ringB 0
    let p3 := start_playback_p r.1
    ⟨{ p3 with last_note_played := ev.data1 }, r.2.1, r.2.2⟩
  else if cmd = 0xE0 then
    -- Pitchbend (recorded, not applied to live playback)
    ⟨{ p with pitch_bend := ev.data1 + 128 * ev.data2 }, s.ringA, s.ringB⟩
  else s

/-- The play-position advance at player.c lines 703-705:
`play_pos_frames += count; if(play_pos_frames >= frames) play_pos_frames %= frames;`. -/
def advance_play_pos (pos count frames : Nat) : Nat :=
  let pos1 := pos + count
  if pos1 ≥ frames then pos1 % frames else pos1

/-- The soft-mute ramp at player.c lines 709-712: sample at `offset` is
multiplied by `1.0 - offset / count`.  `fadeFrom i count l` applies the ramp
to `l` starting at offset `i`. -/
def fadeFrom (i count : Nat) : List ℚ → List ℚ
  | [] => []
  | x :: xs => x * (1 - (i : ℚ) / (count : ℚ)) :: fadeFrom (i + 1) count xs

def applyFade (out : List ℚ) (count : Nat) : List ℚ :=
  fadeFrom 0 count out

/-- Result of one invocation of the render callback: updated player, updated
ring buffers, and the two output buffers handed back to the host. -/
structure JackResult where
  player : AudioPlayer
  ringA : List ℚ
  ringB : List ℚ
  outA : List ℚ
  outB : List ℚ
  deriving DecidableEq

/-- The audio part of `on_jack_process` (player.c lines 679-725), everything
before the MIDI loop:
1. `STARTING` with settled seek is promoted to `PLAYING` (lines 689-690);
2. if `PLAYING` or `STOPPING`, drain up to `nFrames` frames from ring A and
   the same byte count from ring B, and record
   `eof = (file_read_status == IDLE && read_space(ringbuffer_a) == 0)`
   (lines 692-696);
3. scale the drained samples by `gain` (lines 698-702);
4. advance and wrap `play_pos_frames` (lines 703-705);
5. `STOPPING || (PLAYING && eof)`: soft-mute ramp, state `STOPPED`, and when
   `eof` also `play_pos_frames = 0` and status `SEEKING` (lines 707-721);
6. zero-fill the undrained remainder (lines 724-725; the C memset on
   channel B also starts at the channel-A count). -/
def jack_dsp (p0 : AudioPlayer) (ringA ringB : List ℚ) (nFrames : Nat) :
    JackResult :=
  let p1 := if p0.play_state = STARTING ∧ p0.file_read_status ≠ SEEKING then
      { p0 with play_state := PLAYING }
    else p0
  let draining := p1.play_state = PLAYING ∨ p1.play_state = STOPPING
  let count := if draining then min nFrames ringA.length else 0
  let countB := min count ringB.length
  let ringA1 := ringA.drop count
  let ringB1 := ringB.drop countB
  let eof := draining ∧ p1.file_read_status = IDLE ∧ ringA1.length = 0
  let outA1 := (ringA.take count).map (fun x => x * p1.gain)
  let outB1 := (ringB.take countB).map (fun x => x * p1.gain)
  let pos2 := advance_play_pos p1.play_pos_frames count p1.frames
  let fade := p1.play_state = STOPPING ∨ (p1.play_state = PLAYING ∧ eof)
  let outA2 := if fade then applyFade outA1 count else outA1
  let outB2 := if fade then applyFade outB1 count else outB1
  let p2 := { p1 with play_pos_frames := pos2 }
  let p3 :=
    if fade then
      let pa := { p2 with play_state := STOPPED }
      if eof then { pa with play_pos_frames := 0, file_read_status := SEEKING }
      else pa
    else p2
  ⟨p3, ringA1, ringB1,
   outA2 ++ List.replicate (nFrames - count) 0,
   outB2 ++ List.replicate (nFrames - count) 0⟩

/-- `on_jack_process` (player.c lines 679-777): when no file is open the
callback returns without touching the output buffers (modelled as empty
outputs); otherwise the audio part runs, then each MIDI event of the block
is processed in order. -/
def on_jack_process (p0 : AudioPlayer) (ringA ringB : List ℚ) (nFrames : Nat)
    (events : List MidiEvent) : JackResult :=
  if p0.file_open ≠ 2 then ⟨p0, ringA, ringB, [], []⟩
  else
    let r := jack_dsp p0 ringA ringB nFrames
    let s := events.foldl handle_midi_event ⟨r.player, r.ringA, r.ringB⟩
    ⟨s.player, s.ringA, s.ringB, r.outA, r.outB⟩

/- **** Shared concrete players for witnesses and counterexamples **** -/

/-- A player with an open stereo file, used to instantiate theorems. -/
def openTestPlayer : AudioPlayer := {
  handle := 0, file_open := 2, file_read_status := IDLE, play_state := PLAYING,
  loop := false, gain := 1, track_a := 0, track_b := 0, buffer_size := 48000,
  buffer_count := 5, src_quality := 2, sf_channels := 2, sf_samplerate := 44100,
  sf_frames := 100, play_pos_frames := 7, frames := 10, last_note_played := 0,
  src_ratio_val := 1, src_ratio_inv := 1, pitch_shift := 0, pitch_bend := 0x2000,
  has_jack_client := true }

/-- A player whose file is closed. -/
def closedTestPlayer : AudioPlayer :=
  { openTestPlayer with file_open := 0, play_state := STOPPED }

/- **** List helper lemmas **** -/

theorem foldl_add_div (l : List Nat) (f : Nat → ℚ) (d : ℚ) (a : ℚ) :
    l.foldl (fun acc t => acc + f t / d) a = a + (l.map f).sum / d := by
  induction l generalizing a with
  | nil => simp
  | cons x xs ih => simp only [List.foldl_cons, List.map_cons, List.sum_cons, ih, add_div]; ring

theorem evenTracks_length (n : Nat) : (evenTracks n).length = (n + 1) / 2 := by
  induction n with
  | zero => rfl
  | succ m ih =>
    unfold evenTracks at *
    rw [List.range_succ, List.filter_append, List.length_append, ih]
    by_cases h : m % 2 = 0
    · simp only [List.filter_cons, List.filter_nil, h]
      simp only [decide_True, if_true, List.length_cons, List.length_nil]
      omega
    · simp only [List.filter_cons, List.filter_nil, h]
      simp only [decide_False, Bool.false_eq_true, if_false, List.length_nil]
      omega

theorem oddTracks_length (n : Nat) : (oddTracks n).length = n / 2 := by
  induction n with
  | zero => rfl
  | succ m ih =>
    unfold oddTracks at *
    rw [List.range_succ, List.filter_append, List.length_append, ih]
    by_cases h : m % 2 = 1
    · simp only [List.filter_cons, List.filter_nil, h]
      simp only [decide_True, if_true, List.length_cons, List.length_nil]
      omega
    · simp only [List.filter_cons, List.filter_nil, h]
      simp only [decide_False, Bool.false_eq_true, if_false, List.length_nil]
      omega

/- **** C10 **** -/

/-- C10: `get_player_count` returns `MAX_PLAYERS` (16) on every call,
whatever the registry slots contain, because its per-slot test checks the
(always non-null) array object rather than the slot contents. -/
theorem get_player_count_always_max (slots : Registry) :
    get_player_count slots = MAX_PLAYERS ∧ MAX_PLAYERS = 16 :=
  ⟨rfl, rfl⟩

/- **** C3 **** -/

/-- C3: the handle-validity test in `get_player` is off by one: handle 16
(`== MAX_PLAYERS`) passes the guard although there is no registry slot 16
(`g_players` has indices `0..15`), so in C `g_players[16]` is read out of
bounds.  Handles 17 and -1 are rejected as the claim states. -/
theorem get_player_guard_off_by_one :
    get_player_guard 16 = true ∧ ¬ ((16 : Nat) < MAX_PLAYERS) ∧
    get_player_guard 17 = false ∧ get_player_guard (-1) = false := by
  decide

/- **** C4 **** -/

/-- C4: the ring-space wait loop exits too early.  With 4096 free bytes in
channel A, 0 free bytes in channel B, and 4 bytes (one frame) to write, the
code's guard (`&&` of the two shortage tests) is already false, so the loop
stops sleeping and the write proceeds although channel B lacks the space
(0 < 4); the wait the spec describes (either channel short) would continue. -/
theorem ring_wait_guard_exits_with_b_full :
    ring_wait_guard 4096 0 4 = false ∧ (0 : Nat) < 4 ∧
    ring_wait_guard_spec 4096 0 4 = true := by
  decide

/- **** C5 **** -/

/-- C5: on a player with an open file, `set_gain` rejects any gain outside
[0,2] leaving the whole player (hence `get_gain`) unchanged, and stores any
gain inside [0,2]. -/
theorem set_gain_range (p : AudioPlayer) (g : ℚ) (hopen : p.file_open = 2) :
    ((g < 0 ∨ g > 2) → set_gain p g = p ∧ get_gain (set_gain p g) = get_gain p) ∧
    (0 ≤ g → g ≤ 2 → (set_gain p g).gain = g) := by
  constructor
  · intro hg
    have hs : set_gain p g = p := by
      unfold set_gain
      rw [if_neg (by simp [hopen]), if_pos hg]
    exact ⟨hs, by rw [hs]⟩
  · intro h0 h2
    unfold set_gain
    rw [if_neg (by simp [hopen]), if_neg (by push_neg; exact ⟨h0, h2⟩)]

theorem set_gain_range_witness :
    openTestPlayer.file_open = 2 ∧
    ((((3 : ℚ) < 0 ∨ (3 : ℚ) > 2) →
        set_gain openTestPlayer 3 = openTestPlayer ∧
        get_gain (set_gain openTestPlayer 3) = get_gain openTestPlayer) ∧
      ((0 : ℚ) ≤ 3 → (3 : ℚ) ≤ 2 → (set_gain openTestPlayer 3).gain = 3)) :=
  ⟨rfl, set_gain_range openTestPlayer 3 rfl⟩

/- **** C6 **** -/

/-- C6 counterexample: on a valid player whose file is NOT open,
`enable_loop` is not a no-op — it stores the loop flag (and, the flag being
set while the read status is Idle, also flips the read status to Looping). -/
theorem enable_loop_closed_counterexample :
    closedTestPlayer.file_open ≠ 2 ∧
    enable_loop closedTestPlayer true ≠ closedTestPlayer ∧
    (enable_loop closedTestPlayer true).loop = true ∧
    closedTestPlayer.loop = false ∧
    (enable_loop closedTestPlayer true).file_read_status = LOOPING := by
  decide

/-- C6 amended: on a player whose file is not open, `set_gain`,
`set_track_a`, `set_track_b` and `set_src_quality` are no-ops, and any
handle rejected by the lookup guard resolves to no player (so every setter
is a no-op there); `enable_loop`, however, always stores the loop flag. -/
theorem setters_invalid_or_closed (p : AudioPlayer) (rA rB : List ℚ) (g : ℚ)
    (t : Int) (q : Nat) (b : Bool) (slots : Registry) (h : Int)
    (hclosed : p.file_open ≠ 2) (hinv : h < 0 ∨ (MAX_PLAYERS : Int) < h) :
    set_gain p g = p ∧
    set_track_a ⟨p, rA, rB⟩ t = ⟨p, rA, rB⟩ ∧
    set_track_b ⟨p, rA, rB⟩ t = ⟨p, rA, rB⟩ ∧
    set_src_quality p q = p ∧
    (enable_loop p b).loop = b ∧
    get_player slots h = none := by
  refine ⟨?_, ?_, ?_, ?_, ?_, ?_⟩
  · unfold set_gain; rw [if_pos hclosed]
  · unfold set_track_a; exact if_pos hclosed
  · unfold set_track_b; exact if_pos hclosed
  · unfold set_src_quality; rw [if_pos hclosed]
  · simp only [enable_loop]
    split <;> rfl
  · have hg : get_player_guard h = false := by
      unfold get_player_guard
      rcases hinv with h1 | h1
      · have hd : decide (h < 0) = true := decide_eq_true h1
        simp [hd]
      · have hd : decide (h > (MAX_PLAYERS : Int)) = true := decide_eq_true h1
        simp [hd]
    unfold get_player
    rw [hg]
    simp

theorem setters_invalid_or_closed_witness :
    closedTestPlayer.file_open ≠ 2 ∧ ((-3 : Int) < 0 ∨ (MAX_PLAYERS : Int) < -3) ∧
    (set_gain closedTestPlayer 1 = closedTestPlayer ∧
     set_track_a ⟨closedTestPlayer, [], []⟩ 1 = ⟨closedTestPlayer, [], []⟩ ∧
     set_track_b ⟨closedTestPlayer, [], []⟩ 1 = ⟨closedTestPlayer, [], []⟩ ∧
     set_src_quality closedTestPlayer 1 = closedTestPlayer ∧
     (enable_loop closedTestPlayer true).loop = true ∧
     get_player [] (-3) = none) :=
  ⟨by decide, Or.inl (by decide),
   setters_invalid_or_closed closedTestPlayer [] [] 1 1 1 true [] (-3)
     (by decide) (Or.inl (by decide))⟩

/- **** C1 **** -/

/-- A 3-channel frame: channels 0 and 2 hold 1, channel 1 holds 0. -/
def frame3 : Nat → ℚ := fun t => if t = 1 then 0 else 1

/-- C1 counterexample: for a 3-channel file with `trackA = -1` the code
produces the SUM of the even-indexed channels (each divided by the integer
division `channels/2 = 1`), not their average: on `frame3` the code yields
2 while the claimed average is 1. -/
theorem downmixA_avg_counterexample :
    downmixA 3 (-1) frame3 = 2 ∧ downmixA_spec 3 (-1) frame3 = 1 ∧
    downmixA 3 (-1) frame3 ≠ downmixA_spec 3 (-1) frame3 := by
  have h1 : downmixA 3 (-1) frame3 = 2 := by
    norm_num [downmixA, evenTracks, frame3, List.range_succ]
  have h2 : downmixA_spec 3 (-1) frame3 = 1 := by
    norm_num [downmixA_spec, evenTracks, frame3, List.range_succ]
  exact ⟨h1, h2, by rw [h1, h2]; norm_num⟩

/-- C1 amended: with `trackA < 0` channel A gets the sum of the even-indexed
channels divided by `⌊channels/2⌋` — equal to their average whenever the
channel count is even (but not for odd counts ≥ 3); with `trackA ≥ 0` channel
A gets that channel's sample; channel B follows the claim exactly (its loop
visits the `⌊channels/2⌋` odd-indexed channels, so the division is a true
average); a mono file sends sample/2 to both outputs. -/
theorem downmix_rule (channels : Nat) (ta tb : Int) (f : Nat → ℚ) :
    (1 < channels → ta < 0 →
      downmixA channels ta f =
        ((evenTracks channels).map f).sum / ((channels / 2 : Nat) : ℚ)) ∧
    (1 < channels → channels % 2 = 0 → ta < 0 →
      downmixA channels ta f = downmixA_spec channels ta f) ∧
    (1 < channels → 0 ≤ ta → downmixA channels ta f = f ta.toNat) ∧
    (1 < channels → tb < 0 → downmixB channels tb f = downmixB_spec channels tb f) ∧
    (1 < channels → 0 ≤ tb → downmixB channels tb f = f tb.toNat) ∧
    (channels = 1 →
      downmixA channels ta f = f 0 / 2 ∧ downmixB channels tb f = f 0 / 2) := by
  have hA : 1 < channels → ta < 0 →
      downmixA channels ta f =
        ((evenTracks channels).map f).sum / ((channels / 2 : Nat) : ℚ) := by
    intro h2 hta
    unfold downmixA
    rw [if_pos h2, if_pos hta, foldl_add_div, zero_add]
  refine ⟨hA, ?_, ?_, ?_, ?_, ?_⟩
  · intro h2 heven hta
    rw [hA h2 hta]
    unfold downmixA_spec
    rw [if_pos h2, if_pos hta, evenTracks_length]
    have : channels / 2 = (channels + 1) / 2 := by omega
    rw [this]
  · intro h2 hta
    unfold downmixA
    rw [if_pos h2, if_neg (not_lt.mpr hta)]
  · intro h2 htb
    unfold downmixB downmixB_spec
    rw [if_pos h2, if_pos htb, if_pos h2, if_pos htb, foldl_add_div, zero_add,
      oddTracks_length]
  · intro h2 htb
    unfold downmixB
    rw [if_pos h2, if_neg (not_lt.mpr htb)]
  · intro h1
    subst h1
    unfold downmixA downmixB
    exact ⟨rfl, rfl⟩

theorem downmix_rule_witness :
    (1 < 4) ∧ (4 % 2 = 0) ∧ ((-1 : Int) < 0) ∧
    downmixA 4 (-1) (fun t => (t : ℚ)) = downmixA_spec 4 (-1) (fun t => (t : ℚ)) :=
  ⟨by decide, by decide, by decide,
   (downmix_rule 4 (-1) (-1) (fun t => (t : ℚ))).2.1 (by decide) (by decide)
     (by decide)⟩

/- **** Helper lemmas for `set_position` **** -/

theorem rat_floor_eq_intFloor (q : ℚ) : q.floor = ⌊q⌋ := by
  rw [Rat.floor_def', Rat.floor_def]

theorem get_duration_nonneg (p : AudioPlayer) : 0 ≤ get_duration_p p := by
  unfold get_duration_p
  split
  · positivity
  · exact le_refl 0

/-- Seeking to time 0 on an open player with a positive converted frame
count lands exactly at play position 0 with status `SEEKING` and resets
both ring buffers. -/
theorem set_position_zero (p : AudioPlayer) (rA rB : List ℚ)
    (hopen : p.file_open = 2) (hfr : 0 < p.frames) :
    set_position_p p rA rB 0 =
      ({ p with play_pos_frames := 0, file_read_status := SEEKING }, [], []) := by
  unfold set_position_p
  rw [if_neg (by simp [hopen])]
  have ht : (if (0 : ℚ) ≥ get_duration_p p then get_duration_p p else (0 : ℚ)) = 0 := by
    by_cases hd : (0 : ℚ) ≥ get_duration_p p
    · rw [if_pos hd]
      exact le_antisymm hd (get_duration_nonneg p)
    · rw [if_neg hd]
  simp only [ht, mul_zero, zero_mul]
  have hnot : ¬((0 : ℚ) ≥ (p.frames : ℚ)) := by
    rw [not_le]
    exact_mod_cast hfr
  rw [if_neg hnot]
  simp [rat_floor_eq_intFloor]

/- **** C7 **** -/

/-- C7: a note-off (status 0x80), or a note-on (0x90) with velocity zero,
carrying the same note as the last note that triggered playback, stops
playback (STOPPED stays STOPPED, anything else becomes STOPPING), zeroes the
pitch shift and clears the remembered note; the guard is grouped as
`(status == 0x80) OR (status == 0x90 AND velocity == 0)`, which is exactly
how C operator precedence parses the source expression. -/
theorem midi_note_off (s : JackState) (ev : MidiEvent)
    (hoff : ev.status &&& 0xF0 = 0x80 ∨ (ev.status &&& 0xF0 = 0x90 ∧ ev.data2 = 0))
    (hnote : s.player.last_note_played = ev.data1) :
    (handle_midi_event s ev).player.pitch_shift = 0 ∧
    (handle_midi_event s ev).player.last_note_played = 0 ∧
    (handle_midi_event s ev).player.play_state =
      (if s.player.play_state = STOPPED then STOPPED else STOPPING) := by
  unfold handle_midi_event
  rw [if_pos ⟨hoff, hnote⟩]
  refine ⟨rfl, rfl, ?_⟩
  simp only [stop_playback_p]
  split_ifs with h1 h2 <;> simp_all

def noteOffTestState : JackState :=
  ⟨{ openTestPlayer with last_note_played := 48, pitch_shift := 12 }, [1], [1]⟩

theorem midi_note_off_witness :
    ((0x80 : Nat) &&& 0xF0 = 0x80 ∨ ((0x80 : Nat) &&& 0xF0 = 0x90 ∧ (0 : Nat) = 0)) ∧
    noteOffTestState.player.last_note_played = 48 ∧
    ((handle_midi_event noteOffTestState ⟨0x80, 48, 0⟩).player.pitch_shift = 0 ∧
     (handle_midi_event noteOffTestState ⟨0x80, 48, 0⟩).player.last_note_played = 0 ∧
     (handle_midi_event noteOffTestState ⟨0x80, 48, 0⟩).player.play_state =
       (if noteOffTestState.player.play_state = STOPPED then STOPPED else STOPPING)) :=
  ⟨Or.inl (by decide), rfl,
   midi_note_off noteOffTestState ⟨0x80, 48, 0⟩ (Or.inl (by decide)) rfl⟩


/- **** C8 **** -/

theorem stop_playback_file_open (p : AudioPlayer) :
    (stop_playback_p p).file_open = p.file_open := by
  unfold stop_playback_p; split <;> rfl

theorem stop_playback_jack (p : AudioPlayer) :
    (stop_playback_p p).has_jack_client = p.has_jack_client := by
  unfold stop_playback_p; split <;> rfl

theorem stop_playback_frames (p : AudioPlayer) :
    (stop_playback_p p).frames = p.frames := by
  unfold stop_playback_p; split <;> rfl

theorem stop_playback_not_playing (p : AudioPlayer) :
    (stop_playback_p p).play_state ≠ PLAYING := by
  unfold stop_playback_p
  split
  · intro h
    simp only [STOPPING, PLAYING] at h
    exact absurd h (by decide)
  · next h =>
    simp only [ne_eq, not_not] at h
    intro h2
    rw [h] at h2
    simp only [STOPPED, PLAYING] at h2
    exact absurd h2 (by decide)

/-- C8: a note-on (status 0x90) that is not treated as a note-off stops the
current playback, sets `pitch_shift = 60 - note` (reference note 60), seeks
to play position 0 (flagging `SEEKING`), starts playback (state `STARTING`),
and remembers the note. -/
theorem midi_note_on (s : JackState) (ev : MidiEvent)
    (hcmd : ev.status &&& 0xF0 = 0x90)
    (hnoff : ¬(ev.data2 = 0 ∧ s.player.last_note_played = ev.data1))
    (hopen : s.player.file_open = 2)
    (hjack : s.player.has_jack_client = true)
    (hfr : 0 < s.player.frames) :
    (handle_midi_event s ev).player.pitch_shift = 60 - (ev.data1 : Int) ∧
    (handle_midi_event s ev).player.play_pos_frames = 0 ∧
    (handle_midi_event s ev).player.file_read_status = SEEKING ∧
    (handle_midi_event s ev).player.play_state = STARTING ∧
    (handle_midi_event s ev).player.last_note_played = ev.data1 := by
  have hguard : ¬(((ev.status &&& 0xF0) = 0x80 ∨
      ((ev.status &&& 0xF0) = 0x90 ∧ ev.data2 = 0)) ∧
      s.player.last_note_played = ev.data1) := by
    rintro ⟨h80 | ⟨_, h0⟩, hl⟩
    · rw [hcmd] at h80
      exact absurd h80 (by decide)
    · exact hnoff ⟨h0, hl⟩
  have hstop2 : ({ stop_playback_p s.player with
      pitch_shift := 60 - (ev.data1 : Int) } : AudioPlayer).file_open = 2 := by
    show (stop_playback_p s.player).file_open = 2
    rw [stop_playback_file_open]; exact hopen
  have hfr2 : 0 < ({ stop_playback_p s.player with
      pitch_shift := 60 - (ev.data1 : Int) } : AudioPlayer).frames := by
    show 0 < (stop_playback_p s.player).frames
    rw [stop_playback_frames]; exact hfr
  unfold handle_midi_event
  rw [if_neg hguard, if_pos hcmd]
  simp only [set_position_zero _ s.ringA s.ringB hstop2 hfr2]
  have hstart : start_playback_p ({ stop_playback_p s.player with
        pitch_shift := 60 - (ev.data1 : Int), play_pos_frames := 0,
        file_read_status := SEEKING } : AudioPlayer) =
      { stop_playback_p s.player with
        pitch_shift := 60 - (ev.data1 : Int), play_pos_frames := 0,
        file_read_status := SEEKING, play_state := STARTING } := by
    unfold start_playback_p
    rw [if_pos]
    refine ⟨?_, ?_, ?_⟩
    · show (stop_playback_p s.player).has_jack_client = true
      rw [stop_playback_jack]; exact hjack
    · show (stop_playback_p s.player).file_open = 2
      rw [stop_playback_file_open]; exact hopen
    · show (stop_playback_p s.player).play_state ≠ PLAYING
      exact stop_playback_not_playing s.player
  rw [hstart]
  refine ⟨?_, ?_, ?_, ?_, ?_⟩ <;> first | rfl | trivial


theorem midi_note_on_witness :
    ((0x90 : Nat) &&& 0xF0 = 0x90) ∧
    ¬((100 : Nat) = 0 ∧ noteOffTestState.player.last_note_played = 48) ∧
    noteOffTestState.player.file_open = 2 ∧
    noteOffTestState.player.has_jack_client = true ∧
    0 < noteOffTestState.player.frames ∧
    ((handle_midi_event noteOffTestState ⟨0x90, 48, 100⟩).player.pitch_shift = 60 - 48 ∧
     (handle_midi_event noteOffTestState ⟨0x90, 48, 100⟩).player.play_pos_frames = 0 ∧
     (handle_midi_event noteOffTestState ⟨0x90, 48, 100⟩).player.file_read_status = SEEKING ∧
     (handle_midi_event noteOffTestState ⟨0x90, 48, 100⟩).player.play_state = STARTING ∧
     (handle_midi_event noteOffTestState ⟨0x90, 48, 100⟩).player.last_note_played = 48) :=
  ⟨by decide, by decide, rfl, rfl, by decide,
   midi_note_on noteOffTestState ⟨0x90, 48, 100⟩ (by decide) (by decide) rfl rfl
     (by decide)⟩

/- **** List access helper lemmas, and claims C2 and C9 **** -/

theorem getD_append_left (l l' : List ℚ) (i : Nat) (h : i < l.length) :
    (l ++ l').getD i 0 = l.getD i 0 := by
  induction l generalizing i with
  | nil => simp at h
  | cons x xs ih =>
    cases i with
    | zero => rfl
    | succ j =>
      simp only [List.cons_append, List.getD_cons_succ]
      exact ih j (by simpa using h)

theorem getD_map_mul (l : List ℚ) (g : ℚ) (i : Nat) (h : i < l.length) :
    (l.map (fun x => x * g)).getD i 0 = l.getD i 0 * g := by
  induction l generalizing i with
  | nil => simp at h
  | cons x xs ih =>
    cases i with
    | zero => rfl
    | succ j =>
      simp only [List.map_cons, List.getD_cons_succ]
      exact ih j (by simpa using h)

theorem getD_take (l : List ℚ) (n i : Nat) (h : i < n) :
    (l.take n).getD i 0 = l.getD i 0 := by
  induction l generalizing i n with
  | nil => simp
  | cons x xs ih =>
    cases n with
    | zero => omega
    | succ m =>
      cases i with
      | zero => rfl
      | succ j =>
        simp only [List.take_succ_cons, List.getD_cons_succ]
        exact ih m j (by omega)

theorem fadeFrom_length (l : List ℚ) (j c : Nat) :
    (fadeFrom j c l).length = l.length := by
  induction l generalizing j with
  | nil => rfl
  | cons x xs ih => simp [fadeFrom, ih]

theorem fadeFrom_getD (l : List ℚ) (j c i : Nat) (h : i < l.length) :
    (fadeFrom j c l).getD i 0 = l.getD i 0 * (1 - ((j + i : Nat) : ℚ) / (c : ℚ)) := by
  induction l generalizing j i with
  | nil => simp at h
  | cons x xs ih =>
    cases i with
    | zero => simp [fadeFrom]
    | succ k =>
      simp only [fadeFrom, List.getD_cons_succ]
      rw [ih (j + 1) k (by simpa using h)]
      have : j + 1 + k = j + (k + 1) := by omega
      rw [this]

/-- C2: when the render callback runs on an open player in state `STOPPING`,
or in state `PLAYING` with end-of-input reached (read status `IDLE` and ring
channel A emptied by the drain, i.e. it held at most `nFrames` samples), it
applies the linear fade-to-silence ramp `1 - offset/count` across the `count`
drained (gain-scaled) frames and sets the transport state to `STOPPED`; in
the end-of-input (`PLAYING`) case it additionally resets `play_pos_frames`
to 0 and sets the read status to `SEEKING`. -/
theorem render_stop_fade (p : AudioPlayer) (ringA ringB : List ℚ) (nFrames : Nat)
    (hopen : p.file_open = 2)
    (hcase : p.play_state = STOPPING ∨
      (p.play_state = PLAYING ∧ p.file_read_status = IDLE ∧ ringA.length ≤ nFrames)) :
    (on_jack_process p ringA ringB nFrames []).player.play_state = STOPPED ∧
    (∀ i, i < min nFrames ringA.length →
      (on_jack_process p ringA ringB nFrames []).outA.getD i 0 =
        ringA.getD i 0 * p.gain *
          (1 - (i : ℚ) / ((min nFrames ringA.length : Nat) : ℚ))) ∧
    (p.play_state = PLAYING →
      (on_jack_process p ringA ringB nFrames []).player.play_pos_frames = 0 ∧
      (on_jack_process p ringA ringB nFrames []).player.file_read_status = SEEKING) := by
  have hres : on_jack_process p ringA ringB nFrames [] = jack_dsp p ringA ringB nFrames := by
    unfold on_jack_process
    rw [if_neg (by simp [hopen])]
    rfl
  rw [hres]
  have hfadeA : ∀ i, i < min nFrames ringA.length →
      (applyFade ((ringA.take (min nFrames ringA.length)).map (fun x => x * p.gain))
          (min nFrames ringA.length) ++
        List.replicate (nFrames - min nFrames ringA.length) 0).getD i 0 =
      ringA.getD i 0 * p.gain *
        (1 - (i : ℚ) / ((min nFrames ringA.length : Nat) : ℚ)) := by
    intro i hi
    have hcle : min nFrames ringA.length ≤ ringA.length := min_le_right _ _
    have hlen1 : ((ringA.take (min nFrames ringA.length)).map (fun x => x * p.gain)).length
        = min nFrames ringA.length := by
      simp [List.length_take]
    rw [getD_append_left _ _ i
      (by simpa [applyFade, fadeFrom_length, hlen1] using hi)]
    unfold applyFade
    rw [fadeFrom_getD _ 0 _ i (by rw [hlen1]; exact hi)]
    rw [getD_map_mul _ _ i (by simp [List.length_take]; omega)]
    rw [getD_take _ _ i hi]
    norm_num
  rcases hcase with hps | ⟨hps, hidle, hlen⟩
  · have houtA : (jack_dsp p ringA ringB nFrames).outA =
        applyFade ((ringA.take (min nFrames ringA.length)).map (fun x => x * p.gain))
          (min nFrames ringA.length) ++
        List.replicate (nFrames - min nFrames ringA.length) 0 := by
      unfold jack_dsp
      norm_num [hps, STARTING, PLAYING, STOPPING, IDLE, SEEKING]
    refine ⟨?_, ?_, ?_⟩
    · unfold jack_dsp
      norm_num [hps, STARTING, PLAYING, STOPPING, STOPPED, IDLE, SEEKING]
      split <;> rfl
    · intro i hi
      rw [houtA]
      exact hfadeA i hi
    · intro hplay
      rw [hps] at hplay
      exact absurd hplay (by decide)
  · have hdrop : ringA.length - min nFrames ringA.length = 0 := by omega
    have houtA : (jack_dsp p ringA ringB nFrames).outA =
        applyFade ((ringA.take (min nFrames ringA.length)).map (fun x => x * p.gain))
          (min nFrames ringA.length) ++
        List.replicate (nFrames - min nFrames ringA.length) 0 := by
      unfold jack_dsp
      norm_num [hps, hidle, hdrop, STARTING, PLAYING, STOPPING, IDLE, SEEKING]
    refine ⟨?_, ?_, ?_⟩
    · unfold jack_dsp
      norm_num [hps, hidle, hdrop, STARTING, PLAYING, STOPPING, STOPPED, IDLE, SEEKING]
    · intro i hi
      rw [houtA]
      exact hfadeA i hi
    · intro _
      unfold jack_dsp
      norm_num [hps, hidle, hdrop, STARTING, PLAYING, STOPPING, STOPPED, IDLE, SEEKING]

def stoppingTestPlayer : AudioPlayer := { openTestPlayer with play_state := STOPPING }

theorem render_stop_fade_witness :
    stoppingTestPlayer.file_open = 2 ∧
    (stoppingTestPlayer.play_state = STOPPING ∨
      (stoppingTestPlayer.play_state = PLAYING ∧
        stoppingTestPlayer.file_read_status = IDLE ∧
        ([(1 : ℚ), 2]).length ≤ 4)) ∧
    ((on_jack_process stoppingTestPlayer [(1 : ℚ), 2] [(1 : ℚ), 2] 4 []).player.play_state
        = STOPPED ∧
     (∀ i, i < min 4 ([(1 : ℚ), 2]).length →
       (on_jack_process stoppingTestPlayer [(1 : ℚ), 2] [(1 : ℚ), 2] 4 []).outA.getD i 0 =
         ([(1 : ℚ), 2]).getD i 0 * stoppingTestPlayer.gain *
           (1 - (i : ℚ) / ((min 4 ([(1 : ℚ), 2]).length : Nat) : ℚ))) ∧
     (stoppingTestPlayer.play_state = PLAYING →
       (on_jack_process stoppingTestPlayer [(1 : ℚ), 2] [(1 : ℚ), 2] 4 []).player.play_pos_frames = 0 ∧
       (on_jack_process stoppingTestPlayer [(1 : ℚ), 2] [(1 : ℚ), 2] 4 []).player.file_read_status = SEEKING)) :=
  ⟨rfl, Or.inl rfl,
   render_stop_fade stoppingTestPlayer [(1 : ℚ), 2] [(1 : ℚ), 2] 4 rfl (Or.inl rfl)⟩

/- C9 helpers -/

theorem advance_play_pos_mod (pos count frames : Nat) (hfr : 0 < frames) :
    advance_play_pos pos count frames = (pos + count) % frames := by
  unfold advance_play_pos
  by_cases h : pos + count ≥ frames
  · rw [if_pos h]
  · rw [if_neg h]
    exact (Nat.mod_eq_of_lt (lt_of_not_ge h)).symm

theorem advance_play_pos_lt (pos count frames : Nat) (hfr : 0 < frames) :
    advance_play_pos pos count frames < frames := by
  rw [advance_play_pos_mod pos count frames hfr]
  exact Nat.mod_lt _ hfr

theorem stop_playback_pos (p : AudioPlayer) :
    (stop_playback_p p).play_pos_frames = p.play_pos_frames := by
  unfold stop_playback_p; split <;> rfl

theorem start_playback_frames (p : AudioPlayer) :
    (start_playback_p p).frames = p.frames := by
  unfold start_playback_p; split <;> rfl

theorem start_playback_pos (p : AudioPlayer) :
    (start_playback_p p).play_pos_frames = p.play_pos_frames := by
  unfold start_playback_p; split <;> rfl

theorem set_position_frames (p : AudioPlayer) (rA rB : List ℚ) (t : ℚ) :
    (set_position_p p rA rB t).1.frames = p.frames := by
  unfold set_position_p; split <;> rfl

theorem floor_clamp_lt (x : ℚ) (n : Nat) (hn : 0 < n) :
    (if x ≥ (n : ℚ) then ((n - 1 : Nat) : ℚ) else x).floor.toNat < n := by
  split
  · rw [rat_floor_eq_intFloor, Int.floor_natCast]
    omega
  · next hlt =>
    rw [rat_floor_eq_intFloor]
    have hlt2 : x < ((n : Int) : ℚ) := by
      push_cast
      exact lt_of_not_ge hlt
    have hfl := Int.floor_lt.mpr hlt2
    omega

theorem set_position_pos_lt (p : AudioPlayer) (rA rB : List ℚ) (t : ℚ)
    (hF : 0 < p.frames) (hq : p.play_pos_frames < p.frames) :
    (set_position_p p rA rB t).1.play_pos_frames < p.frames := by
  unfold set_position_p
  by_cases hopen : p.file_open ≠ 2
  · rw [if_pos hopen]
    exact hq
  · rw [if_neg hopen]
    exact floor_clamp_lt _ p.frames hF

theorem handle_midi_preserves_pos (s : JackState) (ev : MidiEvent) (F : Nat)
    (hF : 0 < F) (hfr : s.player.frames = F) (hpos : s.player.play_pos_frames < F) :
    (handle_midi_event s ev).player.frames = F ∧
    (handle_midi_event s ev).player.play_pos_frames < F := by
  by_cases h1 : ((ev.status &&& 0xF0) = 0x80 ∨
      ((ev.status &&& 0xF0) = 0x90 ∧ ev.data2 = 0)) ∧
      s.player.last_note_played = ev.data1
  case neg =>
    by_cases h2 : (ev.status &&& 0xF0) = 0x90
    case pos =>
      unfold handle_midi_event
      rw [if_neg h1, if_pos h2]
      constructor
      · show (start_playback_p (set_position_p _ s.ringA s.ringB 0).1).frames = F
        rw [start_playback_frames, set_position_frames]
        show (stop_playback_p s.player).frames = F
        rw [stop_playback_frames]; exact hfr
      · show (start_playback_p (set_position_p _ s.ringA s.ringB 0).1).play_pos_frames < F
        rw [start_playback_pos]
        have hfr2 : ({ stop_playback_p s.player with
            pitch_shift := 60 - (ev.data1 : Int) } : AudioPlayer).frames = F := by
          show (stop_playback_p s.player).frames = F
          rw [stop_playback_frames]; exact hfr
        have hpos2 : ({ stop_playback_p s.player with
            pitch_shift := 60 - (ev.data1 : Int) } : AudioPlayer).play_pos_frames < F := by
          show (stop_playback_p s.player).play_pos_frames < F
          rw [stop_playback_pos]; exact hpos
        have hlt := set_position_pos_lt
          ({ stop_playback_p s.player with pitch_shift := 60 - (ev.data1 : Int) })
          s.ringA s.ringB 0 (by rw [hfr2]; exact hF) (by rw [hfr2]; exact hpos2)
        rw [hfr2] at hlt
        exact hlt
    case neg =>
      by_cases h3 : (ev.status &&& 0xF0) = 0xE0
      · unfold handle_midi_event
        rw [if_neg h1, if_neg h2, if_pos h3]
        exact ⟨hfr, hpos⟩
      · unfold handle_midi_event
        rw [if_neg h1, if_neg h2, if_neg h3]
        exact ⟨hfr, hpos⟩
  case pos =>
    unfold handle_midi_event
    rw [if_pos h1]
    constructor
    · show (stop_playback_p s.player).frames = F
      rw [stop_playback_frames]; exact hfr
    · show (stop_playback_p s.player).play_pos_frames < F
      rw [stop_playback_pos]; exact hpos

theorem foldl_midi_preserves_pos (events : List MidiEvent) (s : JackState) (F : Nat)
    (hF : 0 < F) (hfr : s.player.frames = F) (hpos : s.player.play_pos_frames < F) :
    (events.foldl handle_midi_event s).player.frames = F ∧
    (events.foldl handle_midi_event s).player.play_pos_frames < F := by
  induction events generalizing s with
  | nil => exact ⟨hfr, hpos⟩
  | cons e es ih =>
    have h := handle_midi_preserves_pos s e F hF hfr hpos
    exact ih (handle_midi_event s e) h.1 h.2

theorem jack_dsp_frames (p : AudioPlayer) (ringA ringB : List ℚ) (nFrames : Nat) :
    (jack_dsp p ringA ringB nFrames).player.frames = p.frames := by
  simp only [jack_dsp]
  split_ifs <;> rfl

theorem jack_dsp_pos_lt (p : AudioPlayer) (ringA ringB : List ℚ) (nFrames : Nat)
    (hfr : 0 < p.frames) :
    (jack_dsp p ringA ringB nFrames).player.play_pos_frames < p.frames := by
  simp only [jack_dsp]
  split_ifs <;>
    first
      | exact hfr
      | exact advance_play_pos_lt _ _ _ hfr


/-- C9: for an open player with a positive converted frame count, the play
position advance in the render callback is exactly "add the drained frame
count, then reduce modulo the total frame count" (`advance_play_pos` is the
code of player.c lines 703-705), and after the whole callback — drain,
fade/eof handling and MIDI processing included — `play_pos_frames` is
strictly below the total converted frame count. -/
theorem render_position_wrap (p : AudioPlayer) (ringA ringB : List ℚ) (nFrames : Nat)
    (events : List MidiEvent) (hopen : p.file_open = 2) (hfr : 0 < p.frames) :
    (∀ pos count, advance_play_pos pos count p.frames = (pos + count) % p.frames) ∧
    (on_jack_process p ringA ringB nFrames events).player.play_pos_frames < p.frames := by
  refine ⟨fun pos count => advance_play_pos_mod pos count p.frames hfr, ?_⟩
  have hoj : (on_jack_process p ringA ringB nFrames events).player =
      (events.foldl handle_midi_event
        ⟨(jack_dsp p ringA ringB nFrames).player, (jack_dsp p ringA ringB nFrames).ringA,
         (jack_dsp p ringA ringB nFrames).ringB⟩).player := by
    unfold on_jack_process
    rw [if_neg (by simp [hopen])]
  rw [hoj]
  exact (foldl_midi_preserves_pos events _ p.frames hfr
    (jack_dsp_frames p ringA ringB nFrames) (jack_dsp_pos_lt p ringA ringB nFrames hfr)).2

theorem render_position_wrap_witness :
    openTestPlayer.file_open = 2 ∧ 0 < openTestPlayer.frames ∧
    ((∀ pos count,
        advance_play_pos pos count openTestPlayer.frames = (pos + count) % openTestPlayer.frames) ∧
     (on_jack_process openTestPlayer [(1 : ℚ), 2] [(1 : ℚ), 2] 4 []).player.play_pos_frames <
       openTestPlayer.frames) :=
  ⟨rfl, by decide,
   render_position_wrap openTestPlayer [(1 : ℚ), 2] [(1 : ℚ), 2] 4 [] rfl (by decide)⟩
